import Mathlib

/-!
Verification of the HIRA Light staffing pipeline against its specification.

Each Python function of the staffing-demand-to-schedule core is shallowly
embedded as an executable Lean definition:

* `staff_needed`            — src/pipeline/staffing_plan.py (`staff_needed`),
                              equivalent to `_ceil_div` in src/logic/staffing_plan.py
* `generate_staffing_plan`  — src/pipeline/staffing_plan.py (`generate_staffing_plan`)
* `apply_nash_seasonality`  — src/ingestion/seasons_loader.py
* `assign_staff_to_shifts`  — src/pipeline/scheduler.py
* `build_position_control`,
  `compare_plan_vs_resources` — src/logic/position_control.py
* `run_pipeline`            — src/main.py (`run_pipeline`)

Floats are modelled as rationals, pandas missing values (`NaN` / `pd.NA` /
`None`) as `Option`, DataFrames as lists of records whose column headers have
already been normalised by the ingestion boundary (header sniffing, Excel I/O
and date parsing are external collaborators per the specification and are not
part of the core being verified).  `groupby` over key columns is modelled as
the sorted list of distinct keys (pandas sorts group keys), each paired with
the aggregate over the rows carrying that key.
-/

namespace HiraLight

/-! ## Demand computation (Demand Planner) -/

/-- Python: `staff_needed(census, ratio)` from src/pipeline/staffing_plan.py:

```
if pd.isna(census) or pd.isna(ratio) or ratio <= 0:
    return 0
return math.ceil(census / ratio)
```

`none` models a missing / NaN value; the function is total, so the "never
raises" part of the zero-ratio-safety claim is inherent to the embedding. -/
def staff_needed (census ratio : Option ℚ) : ℤ :=
  match census, ratio with
  | some c, some r => if r ≤ 0 then 0 else ⌈c / r⌉
  | _, _ => 0

/-! ## Season labeling (Season Labeler) -/

/-- A season rule from the `seasons` list of config/settings.yaml: month
numbers, weekday indices (0 = Monday, as produced by pandas `dt.dayofweek`)
and the season label of the rule. -/
structure SeasonRule where
  months : List ℕ
  weekdays : List ℕ
  season : String
deriving DecidableEq

/-- A census record as seen by `apply_nash_seasonality` after the pandas
accessors `df["Date"].dt.month` and `df["Date"].dt.dayofweek` have derived the
month number and weekday index from its date (date parsing is the ingestion
boundary's responsibility). -/
structure CensusDated where
  month : ℕ
  weekday : ℕ
deriving DecidableEq

/-- A census record enriched with `SeasonLabel` and `SeasonFactor`, the output
row shape of `apply_nash_seasonality`. -/
structure LabeledRow where
  month : ℕ
  weekday : ℕ
  seasonLabel : String
  seasonFactor : ℚ
deriving DecidableEq

/-- Python: the inner `map_label` closure of `apply_nash_seasonality`
(src/ingestion/seasons_loader.py): scan the rules in order and return the
season of the first rule whose months contain the record's month and whose
weekdays contain the record's weekday; default "Medium". -/
def mapLabel (rules : List SeasonRule) (m w : ℕ) : String :=
  match rules with
  | [] => "Medium"
  | q :: rest => if m ∈ q.months ∧ w ∈ q.weekdays then q.season else mapLabel rest m w

/-- Python: the inner `label_to_factor` closure of `apply_nash_seasonality`:
"High" maps to 1.1, "Low" to 0.9, everything else (including "Medium") to 1.0. -/
def label_to_factor (label : String) : ℚ :=
  if label = "High" then 11/10 else if label = "Low" then 9/10 else 1

/-- Python: `apply_nash_seasonality(census_df, rules)` from
src/ingestion/seasons_loader.py, row-wise. -/
def apply_nash_seasonality (rules : List SeasonRule) (rows : List CensusDated) :
    List LabeledRow :=
  rows.map (fun r =>
    { month := r.month, weekday := r.weekday,
      seasonLabel := mapLabel rules r.month r.weekday,
      seasonFactor := label_to_factor (mapLabel rules r.month r.weekday) })

/-! ## Staffing plan generation -/

/-- A census row as consumed by `generate_staffing_plan`: `Date`, `Census`
and optional `SeasonLabel`.  `none` census models a NaN / absent value (both
code paths yield demand 0: NaN short-circuits `staff_needed`, `None` is
replaced by `0.0` whose ceiling quotient is 0). -/
structure CensusRow where
  date : String
  census : Option ℚ
  seasonLabel : Option String
deriving DecidableEq

/-- A staffing-rule row: wide format carries `Low` / `Medium` / `High` ratio
columns, simple format carries a single `Ratio` column; absent columns and
NaN cells are `none`. -/
structure RuleRow where
  role : String
  low : Option ℚ
  medium : Option ℚ
  high : Option ℚ
  ratio : Option ℚ
deriving DecidableEq

/-- The rules DataFrame together with the frame-level fact
`has_season_cols = any(col in rules_df.columns for col in ["Low", "Medium",
"High"])` computed by `generate_staffing_plan`. -/
structure RulesTable where
  hasSeasonCols : Bool
  rows : List RuleRow
deriving DecidableEq

/-- `r_row.get(season, pd.NA)` for a season name: select the matching wide
ratio column. -/
def seasonRatio (row : RuleRow) (season : String) : Option ℚ :=
  if season = "Low" then row.low
  else if season = "Medium" then row.medium
  else if season = "High" then row.high
  else none

/-- The ratio-selection branch of `generate_staffing_plan`:
`if has_season_cols and season in ["Low", "Medium", "High"]` use the season
column, else the `Ratio` column. -/
def pickRatio (rules : RulesTable) (row : RuleRow) (season : Option String) :
    Option ℚ :=
  match season with
  | some s =>
      if rules.hasSeasonCols = true ∧ (s = "Low" ∨ s = "Medium" ∨ s = "High")
      then seasonRatio row s else row.ratio
  | none => row.ratio

/-- A row of the staffing plan DataFrame produced by
`generate_staffing_plan` (src/pipeline/staffing_plan.py): columns
Date, Role, SeasonLabel, Census, RatioUsed, Staff_Needed. -/
structure PlanRow where
  date : String
  role : String
  seasonLabel : String
  census : Option ℚ
  ratioUsed : Option ℚ
  staffNeeded : ℤ
deriving DecidableEq

/-- Python: `generate_staffing_plan(census_df, rules_df)` from
src/pipeline/staffing_plan.py: one plan row per (census row × rule row);
the output `SeasonLabel` is `season if season else "N/A"` (Python
truthiness: `None` and the empty string both give "N/A"). -/
def generate_staffing_plan (census : List CensusRow) (rules : RulesTable) :
    List PlanRow :=
  census.flatMap (fun c =>
    rules.rows.map (fun r =>
      let ratio := pickRatio rules r c.seasonLabel
      { date := c.date,
        role := r.role,
        seasonLabel := match c.seasonLabel with
                       | some s => if s = "" then "N/A" else s
                       | none => "N/A",
        census := c.census,
        ratioUsed := ratio,
        staffNeeded := staff_needed c.census ratio }))

/-- Python: `build_staffing_plan_from_rules` — the thin wrapper around
`generate_staffing_plan` called by the orchestrators (defined in
src/pipeline/staffing_plan.py; src/main.py imports it under the
`logic.staffing_plan` module name). -/
def build_staffing_plan_from_rules (census : List CensusRow)
    (rules : RulesTable) : List PlanRow :=
  generate_staffing_plan census rules

/-! ## Shift allocation (Shift Allocator) -/

/-- A shift definition row as consumed by `assign_staff_to_shifts`: the shift
label (`Shift` or `name` column), start, end and hours payload (copied
verbatim into the output records). -/
structure ShiftRow where
  shift : String
  startT : String
  endT : String
  hours : String
deriving DecidableEq

/-- An output row of `assign_staff_to_shifts` (src/pipeline/scheduler.py). -/
structure ScheduleRecord where
  date : String
  role : String
  seasonLabel : String
  shift : String
  startT : String
  endT : String
  hours : String
  assigned : ℤ
  shiftSource : String
deriving DecidableEq

/-- Grouping key of the scheduler: `["Date", "Role", "SeasonLabel"]`. -/
abbrev Key3 := String × String × String

/-- Lexicographic order on scheduler grouping keys; pandas `groupby` sorts
its group keys in this order. -/
def le3 (a b : Key3) : Prop :=
  a.1 < b.1 ∨ (a.1 = b.1 ∧ (a.2.1 < b.2.1 ∨ (a.2.1 = b.2.1 ∧ a.2.2 ≤ b.2.2)))

instance : DecidableRel le3 := fun a b => by unfold le3; infer_instance

/-- The grouping key of a plan row. -/
def key3 (r : PlanRow) : Key3 := (r.date, r.role, r.seasonLabel)

/-- The sorted distinct `(Date, Role, SeasonLabel)` keys of the plan —
the groups of `plan_df.groupby(["Date", "Role", "SeasonLabel"])`. -/
def groupKeys3 (plan : List PlanRow) : List Key3 :=
  List.insertionSort le3 (plan.map key3).dedup

/-- Python: `int(grp["Staff_Needed"].sum())` for the group with key `k`. -/
def groupTotal3 (plan : List PlanRow) (k : Key3) : ℤ :=
  ((plan.filter (fun r => decide (key3 r = k))).map (fun r => r.staffNeeded)).sum

/-- Shift-source resolution of `assign_staff_to_shifts`:
`use_yaml = shifts_df is None or shifts_df.empty`; when using YAML the blocks
are `shifts_cfg.get(role, [])`, tagged "YAML"; otherwise the whole Excel
table is used for every role, tagged "Excel".  `yamlCfg` is the mapping
loaded once from config/settings.yaml by `load_shift_rules`
(src/ingestion/shifts_loader.py). -/
def resolveShifts (shiftsDf : Option (List ShiftRow))
    (yamlCfg : String → List ShiftRow) (role : String) : List ShiftRow × String :=
  match shiftsDf with
  | some rows => if rows = [] then (yamlCfg role, "YAML") else (rows, "Excel")
  | none => (yamlCfg role, "YAML")

/-- One emitted record of the scheduler's inner loop: block at enumeration
index `p.1` receives `base + 1` when `p.1 < remainder`, else `base`. -/
def allocRecord (k : Key3) (base rem : ℤ) (source : String)
    (p : ℕ × ShiftRow) : ScheduleRecord :=
  { date := k.1, role := k.2.1, seasonLabel := k.2.2,
    shift := p.2.shift, startT := p.2.startT, endT := p.2.endT,
    hours := p.2.hours,
    assigned := base + (if (p.1 : ℤ) < rem then 1 else 0),
    shiftSource := source }

/-- The per-group emission loop of `assign_staff_to_shifts`:
`base = staff_needed // n_shifts`, `remainder = staff_needed % n_shifts`
(Python floor division and modulus, i.e. `Int.fdiv` / `Int.fmod`), then one
record per shift block in input order (`enumerate`). -/
def allocateGroup (k : Key3) (total : ℤ) (blocks : List ShiftRow)
    (source : String) : List ScheduleRecord :=
  blocks.enum.map
    (allocRecord k (Int.fdiv total blocks.length) (Int.fmod total blocks.length)
      source)

/-- The body of the scheduler's `for (date, role, season), grp in
plan_df.groupby(...)` loop: skip the group when its total is 0 or when the
resolved shift list is empty, else emit one record per shift block. -/
def processGroup (plan : List PlanRow) (shiftsDf : Option (List ShiftRow))
    (yamlCfg : String → List ShiftRow) (k : Key3) : List ScheduleRecord :=
  if groupTotal3 plan k = 0 then []
  else if (resolveShifts shiftsDf yamlCfg k.2.1).1 = [] then []
  else allocateGroup k (groupTotal3 plan k)
    (resolveShifts shiftsDf yamlCfg k.2.1).1
    (resolveShifts shiftsDf yamlCfg k.2.1).2

/-- Python: `assign_staff_to_shifts(plan_df, shifts_df, yaml_path)` from
src/pipeline/scheduler.py. -/
def assign_staff_to_shifts (plan : List PlanRow)
    (shiftsDf : Option (List ShiftRow)) (yamlCfg : String → List ShiftRow) :
    List ScheduleRecord :=
  (groupKeys3 plan).flatMap (processGroup plan shiftsDf yamlCfg)

/-- The `(Date, Role, SeasonLabel)` key carried by an emitted record. -/
def recKey (rec : ScheduleRecord) : Key3 := (rec.date, rec.role, rec.seasonLabel)

/-- The emitted records belonging to the group with key `k`. -/
def recordsFor (recs : List ScheduleRecord) (k : Key3) : List ScheduleRecord :=
  recs.filter (fun rec => decide (recKey rec = k))

/-! ## Position control and comparison (Capacity Reconciler) -/

/-- A resource-input row after the ingestion boundary normalised the headers
(`Position` → Role, `Unit FTEs` → FTEs, `Availibility` → Availability). -/
structure ResourceRow where
  role : String
  ftes : ℚ
  availability : String
deriving DecidableEq

/-- A position-control row (output of `build_position_control`): Role and
FTEs. -/
structure PCRow where
  role : String
  ftes : ℚ
deriving DecidableEq

/-- Python: `build_position_control(resources_df)` from
src/logic/position_control.py: select the Role / FTEs (/ Availability)
columns and keep only the rows whose Role is exactly "RN" or "NA"
(`out[out["Role"].isin(["RN", "NA"])]`). -/
def build_position_control (resources : List ResourceRow) : List PCRow :=
  (resources.filter (fun r => decide (r.role = "RN" ∨ r.role = "NA"))).map
    (fun r => { role := r.role, ftes := r.ftes })

/-- Grouping key of the comparison: `["Date", "Role"]`. -/
abbrev Key2 := String × String

/-- Lexicographic order on comparison grouping keys. -/
def le2 (a b : Key2) : Prop := a.1 < b.1 ∨ (a.1 = b.1 ∧ a.2 ≤ b.2)

instance : DecidableRel le2 := fun a b => by unfold le2; infer_instance

/-- The comparison grouping key of a plan row. -/
def key2 (r : PlanRow) : Key2 := (r.date, r.role)

/-- The sorted distinct `(Date, Role)` keys of the plan — the groups of
`plan_df.groupby(["Date", "Role"])`. -/
def groupKeys2 (plan : List PlanRow) : List Key2 :=
  List.insertionSort le2 (plan.map key2).dedup

/-- Python: `grp["Staff_Needed"].sum()` over the `(Date, Role)` group. -/
def groupTotal2 (plan : List PlanRow) (k : Key2) : ℤ :=
  ((plan.filter (fun r => decide (key2 r = k))).map (fun r => r.staffNeeded)).sum

/-- The sorted distinct Role values of the position-control table — the
groups of `resources_df.groupby("Role")`. -/
def roleKeys (res : List PCRow) : List String :=
  List.insertionSort (fun a b : String => a ≤ b) (res.map (fun r => r.role)).dedup

/-- `agg({fte_col: "sum"})` for one Role group. -/
def roleSum (res : List PCRow) (role : String) : ℚ :=
  ((res.filter (fun r => decide (r.role = role))).map (fun r => r.ftes)).sum

/-- The `available` aggregate table: one `(Role, Available)` row per distinct
Role. -/
def availableByRole (res : List PCRow) : List (String × ℚ) :=
  (roleKeys res).map (fun role => (role, roleSum res role))

/-- The `needed.merge(available, on="Role", how="left").fillna(0)` lookup:
the Available value for a Role, 0 when the Role has no capacity row. -/
def lookupAvailable (res : List PCRow) (role : String) : ℚ :=
  match (availableByRole res).find? (fun p => decide (p.1 = role)) with
  | some p => p.2
  | none => 0

/-- An output row of `compare_plan_vs_resources`
(src/logic/position_control.py): Date, Role, Needed, Available, Gap,
Shortage, Surplus. -/
structure CompRow where
  date : String
  role : String
  needed : ℤ
  available : ℚ
  gap : ℚ
  shortage : ℚ
  surplus : ℚ
deriving DecidableEq

/-- Python: `compare_plan_vs_resources(plan_df, resources_df)` from
src/logic/position_control.py: aggregate Needed by (Date, Role), aggregate
Available by Role alone, left-merge on Role with `fillna(0)`, then
`Gap = Available - Needed`, `Shortage = (Needed - Available).clip(lower=0)`,
`Surplus = (Available - Needed).clip(lower=0)`. -/
def compare_plan_vs_resources (plan : List PlanRow) (res : List PCRow) :
    List CompRow :=
  (groupKeys2 plan).map (fun k =>
    let needed := groupTotal2 plan k
    let available := lookupAvailable res k.2
    { date := k.1, role := k.2, needed := needed, available := available,
      gap := available - (needed : ℚ),
      shortage := max ((needed : ℚ) - available) 0,
      surplus := max (available - (needed : ℚ)) 0 })

/-- A capacity-aggregate row as described by the specification's Capacity
Reconciler: one `(department, role, shift)` row with summed available FTE. -/
structure CapacityRow where
  department : String
  role : String
  shift : String
  availableFTE : ℚ
deriving DecidableEq

/-- Modelled from the spec (for comparison with the source embedding): the
two-tier fallback matching the specification ascribes to the Capacity
Reconciler — exact match on (department, role, shift), else the
(department, role, "All") row, else 0.  No function in the repository
implements this; `compare_plan_vs_resources` matches on Role alone. -/
def specResolveAvailableFTE (cap : List CapacityRow)
    (dept role shift : String) : ℚ :=
  match cap.find? (fun c =>
      decide (c.department = dept ∧ c.role = role ∧ c.shift = shift)) with
  | some c => c.availableFTE
  | none =>
      match cap.find? (fun c =>
          decide (c.department = dept ∧ c.role = role ∧ c.shift = "All")) with
      | some c => c.availableFTE
      | none => 0

/-! ## Full pipeline (src/main.py `run_pipeline`) -/

/-- A row of the Season Summary sheet:
`schedule_df.groupby(["SeasonLabel", "Role", "Shift"]).agg({"Assigned": "sum"})`. -/
structure SeasonSumRow where
  seasonLabel : String
  role : String
  shift : String
  assigned : ℤ
deriving DecidableEq

/-- The `(SeasonLabel, Role, Shift)` key of a schedule record. -/
def scheduleKey (rec : ScheduleRecord) : Key3 :=
  (rec.seasonLabel, rec.role, rec.shift)

/-- The season summary table of `run_pipeline` (grouped and sorted by
SeasonLabel, Role, Shift — `groupby` followed by `sort_values` on the same
keys). -/
def season_summary (sched : List ScheduleRecord) : List SeasonSumRow :=
  (List.insertionSort le3 (sched.map scheduleKey).dedup).map (fun k =>
    { seasonLabel := k.1, role := k.2.1, shift := k.2.2,
      assigned := ((sched.filter (fun rec => decide (scheduleKey rec = k))).map
        (fun rec => rec.assigned)).sum })

/-- The Summary sheet of `run_pipeline` (src/main.py lines 155-165):
`Run Date` is `datetime.now().strftime("%Y-%m-%d")` — the current wall-clock
date, not a function of the input tables. -/
structure Summary where
  runDate : String
  inputWorkbook : String
  configFile : String
  staffingPlanRows : ℕ
  comparisonRows : ℕ
  scheduleRows : ℕ
  seasonSummaryRows : ℕ
deriving DecidableEq

/-- The five output tables written by `run_pipeline`. -/
structure Tables where
  summary : Summary
  plan : List PlanRow
  comp : List CompRow
  schedule : List ScheduleRecord
  seasonSummary : List SeasonSumRow
deriving DecidableEq

/-- Python: `run_pipeline()` from src/main.py, with the environment inputs
made explicit: `runDate` is what `datetime.now().strftime("%Y-%m-%d")`
returns at run time, `workbook` the resolved Excel path, and the loaded
input tables are parameters (spreadsheet parsing is the ingestion
boundary). -/
def run_pipeline (runDate workbook : String) (census : List CensusRow)
    (rules : RulesTable) (resources : List ResourceRow)
    (shiftsRows : List ShiftRow) (yamlCfg : String → List ShiftRow) : Tables :=
  let plan := build_staffing_plan_from_rules census rules
  let posCtrl := build_position_control resources
  let comp := compare_plan_vs_resources plan posCtrl
  let sched := assign_staff_to_shifts plan (some shiftsRows) yamlCfg
  let ss := season_summary sched
  { summary :=
      { runDate := runDate, inputWorkbook := workbook,
        configFile := "config/settings.yaml",
        staffingPlanRows := plan.length, comparisonRows := comp.length,
        scheduleRows := sched.length, seasonSummaryRows := ss.length },
    plan := plan, comp := comp, schedule := sched, seasonSummary := ss }

/-! ## Concrete sample inputs used by witnesses and counterexamples -/

/-- A one-group staffing plan needing 5 staff (spec example: T = 5, two
shifts, expected split 3 + 2). -/
def samplePlan5 : List PlanRow :=
  [{ date := "2025-06-01", role := "RN", seasonLabel := "High",
     census := none, ratioUsed := none, staffNeeded := 5 }]

/-- A one-group staffing plan whose total demand is 0. -/
def samplePlan0 : List PlanRow :=
  [{ date := "2025-06-02", role := "NA", seasonLabel := "Low",
     census := none, ratioUsed := none, staffNeeded := 0 }]

/-- Two Excel shift rows, Day before Night, in input order. -/
def sampleShifts : List ShiftRow :=
  [{ shift := "Day", startT := "07:00", endT := "19:00", hours := "12" },
   { shift := "Night", startT := "19:00", endT := "07:00", hours := "12" }]

/-- An empty YAML shift configuration. -/
def yamlEmpty : String → List ShiftRow := fun _ => []

/-- A YAML shift configuration defining Day/Night for RN only. -/
def yamlRN : String → List ShiftRow := fun role =>
  if role = "RN" then sampleShifts else []

/-- The scheduler grouping key of `samplePlan5`. -/
def sampleKey5 : Key3 := ("2025-06-01", "RN", "High")

/-- The scheduler grouping key of `samplePlan0`. -/
def sampleKey0 : Key3 := ("2025-06-02", "NA", "Low")

/-- The first record the scheduler emits for `samplePlan5` with the Excel
shift table supplied. -/
def sampleScheduleExcel : ScheduleRecord :=
  { date := "2025-06-01", role := "RN", seasonLabel := "High", shift := "Day",
    startT := "07:00", endT := "19:00", hours := "12", assigned := 3,
    shiftSource := "Excel" }

/-- The first record the scheduler emits for `samplePlan5` when no Excel
shift table is supplied and the YAML configuration defines RN shifts. -/
def sampleScheduleYaml : ScheduleRecord :=
  { date := "2025-06-01", role := "RN", seasonLabel := "High", shift := "Day",
    startT := "07:00", endT := "19:00", hours := "12", assigned := 3,
    shiftSource := "YAML" }

/-- Three RN position-control capacity units (spec example: needed 5,
available 3). -/
def samplePCRN3 : List PCRow := [{ role := "RN", ftes := 3 }]

/-- The comparison row for `samplePlan5` against `samplePCRN3`:
gap -2, shortage 2, surplus 0. -/
def sampleCompRN : CompRow :=
  { date := "2025-06-01", role := "RN", needed := 5, available := 3,
    gap := -2, shortage := 2, surplus := 0 }

/-- A staffing plan needing 5 staff of role "Tech" (neither RN nor NA). -/
def samplePlanTech : List PlanRow :=
  [{ date := "2025-06-01", role := "Tech", seasonLabel := "N/A",
     census := none, ratioUsed := none, staffNeeded := 5 }]

/-- A resource input with plenty of Tech capacity (dropped by the RN/NA
filter of `build_position_control`). -/
def sampleResourcesTech : List ResourceRow :=
  [{ role := "Tech", ftes := 50, availability := "" }]

/-- The comparison row for `samplePlanTech` against the position control of
`sampleResourcesTech`: available FTE resolves to 0 despite the 50 Tech FTEs
in the resource input. -/
def sampleCompTech : CompRow :=
  { date := "2025-06-01", role := "Tech", needed := 5, available := 0,
    gap := -5, shortage := 5, surplus := 0 }

/-- A staffing plan group of 3 RN needed, understood as the demand of
(Dept A, RN, Night); the plan rows of this code base carry no department or
shift column. -/
def samplePlanC3 : List PlanRow :=
  [{ date := "2025-06-01", role := "RN", seasonLabel := "N/A",
     census := none, ratioUsed := none, staffNeeded := 3 }]

/-- A resource input whose only RN belongs to Dept B's Night shift; the
department and shift are already gone after the position-control column
selection, so only Role and FTEs remain. -/
def sampleResourcesDeptB : List ResourceRow :=
  [{ role := "RN", ftes := 5, availability := "" }]

/-- The capacity aggregate the specification would build for
`sampleResourcesDeptB`: a single (Dept B, RN, Night) row of 5 FTE — no
(Dept A, RN, *) row at all. -/
def sampleCapDeptB : List CapacityRow :=
  [{ department := "Dept B", role := "RN", shift := "Night",
     availableFTE := 5 }]

/-- The comparison row the code produces for `samplePlanC3` against the
position control of `sampleResourcesDeptB`: available 5, where the spec's
two-tier matching would resolve 0. -/
def sampleCompC3 : CompRow :=
  { date := "2025-06-01", role := "RN", needed := 3, available := 5,
    gap := 2, shortage := 0, surplus := 2 }

/-! ## Claims C2 and C6: the ceiling law and zero-ratio safety -/

/-- C2 — Ceiling law: for census `c ≥ 0` and ratio `r > 0` the demand
computation returns `⌈c / r⌉`, which covers the census (`staffNeeded * r ≥ c`)
and is minimal (`(staffNeeded - 1) * r < c` whenever `staffNeeded > 0`). -/
theorem ceiling_law (c r : ℚ) (hc : 0 ≤ c) (hr : 0 < r) :
    staff_needed (some c) (some r) = ⌈c / r⌉ ∧
    c ≤ (staff_needed (some c) (some r) : ℚ) * r ∧
    (0 < staff_needed (some c) (some r) →
      ((staff_needed (some c) (some r) : ℚ) - 1) * r < c) := by
  have hne : ¬ r ≤ 0 := not_le.mpr hr
  have h0 : staff_needed (some c) (some r) = ⌈c / r⌉ := by
    simp [staff_needed, hne]
  refine ⟨h0, ?_, ?_⟩
  · rw [h0]
    have hle : c / r ≤ (⌈c / r⌉ : ℚ) := Int.le_ceil _
    calc c = c / r * r := by field_simp
    _ ≤ (⌈c / r⌉ : ℚ) * r := by
          exact mul_le_mul_of_nonneg_right hle (le_of_lt hr)
  · intro _
    rw [h0]
    have hlt : ((⌈c / r⌉ : ℚ) - 1) < c / r := by
      have := Int.ceil_lt_add_one (c / r)
      linarith
    calc ((⌈c / r⌉ : ℚ) - 1) * r < c / r * r :=
          mul_lt_mul_of_pos_right hlt hr
    _ = c := by field_simp

/-- Witness for C2 at the spec's own examples: census 12 with ratio 4 yields
exactly 3 (no extra unit at the divisibility boundary), census 12.01 with
ratio 4 yields 4, census 10 with ratio 4 yields 3. -/
theorem ceiling_law_witness :
    staff_needed (some 12) (some 4) = ⌈(12 : ℚ) / 4⌉ ∧
    staff_needed (some 12) (some 4) = 3 ∧
    staff_needed (some (1201/100)) (some 4) = 4 ∧
    staff_needed (some 10) (some 4) = 3 := by
  refine ⟨(ceiling_law 12 4 (by norm_num) (by norm_num)).1, ?_, ?_, ?_⟩ <;>
    simp only [staff_needed] <;> norm_num [Int.ceil_eq_iff]

/-- C6 — Zero-ratio safety: a missing (NaN) or non-positive ratio yields zero
demand for every census value; `staff_needed` is a total function, so no
exception can be raised. -/
theorem zero_ratio_safety (census ratio : Option ℚ)
    (h : ratio = none ∨ ∃ r, ratio = some r ∧ r ≤ 0) :
    staff_needed census ratio = 0 := by
  rcases h with h | ⟨r, rfl, hr⟩
  · subst h; cases census <;> rfl
  · cases census with
    | none => rfl
    | some c => simp [staff_needed, hr]

/-- Witness for C6: ratio 0, ratio -3 and missing ratio all give demand 0. -/
theorem zero_ratio_safety_witness :
    staff_needed (some 10) (some 0) = 0 ∧
    staff_needed (some 10) (some (-3)) = 0 ∧
    staff_needed (some 10) none = 0 :=
  ⟨zero_ratio_safety (some 10) (some 0) (Or.inr ⟨0, rfl, le_refl 0⟩),
   zero_ratio_safety (some 10) (some (-3)) (Or.inr ⟨-3, rfl, by norm_num⟩),
   zero_ratio_safety (some 10) none (Or.inl rfl)⟩

/-! ## Claim C7: season labeling -/

/-- C7 — Season labeling: the labeler returns the season of the first rule
matching both the record's month and weekday, defaults to "Medium" when no
rule matches, and the factor table is fixed at High 1.1 / Medium 1.0 /
Low 0.9; every emitted row's factor is the table image of its label. -/
theorem season_labeling :
    (∀ (rules : List SeasonRule) (m w : ℕ),
        (∀ q ∈ rules, ¬(m ∈ q.months ∧ w ∈ q.weekdays)) →
        mapLabel rules m w = "Medium") ∧
    (∀ (pre post : List SeasonRule) (q : SeasonRule) (m w : ℕ),
        (∀ p ∈ pre, ¬(m ∈ p.months ∧ w ∈ p.weekdays)) →
        m ∈ q.months → w ∈ q.weekdays →
        mapLabel (pre ++ q :: post) m w = q.season) ∧
    (∀ (rules : List SeasonRule) (rows : List CensusDated) (out : LabeledRow),
        out ∈ apply_nash_seasonality rules rows →
        out.seasonLabel = mapLabel rules out.month out.weekday ∧
        out.seasonFactor = label_to_factor out.seasonLabel) ∧
    (label_to_factor "High" = 11/10 ∧ label_to_factor "Medium" = 1 ∧
      label_to_factor "Low" = 9/10) := by
  refine ⟨?_, ?_, ?_, by simp [label_to_factor]⟩
  · intro rules m w h
    induction rules with
    | nil => rfl
    | cons q rest ih =>
        have hq := h q (List.mem_cons_self q rest)
        simp only [mapLabel, if_neg hq]
        exact ih (fun p hp => h p (List.mem_cons_of_mem q hp))
  · intro pre post q m w hpre hm hw
    induction pre with
    | nil => simp [mapLabel, hm, hw]
    | cons p rest ih =>
        have hp := hpre p (List.mem_cons_self p rest)
        simp only [List.cons_append, mapLabel, if_neg hp]
        exact ih (fun p' hp' => hpre p' (List.mem_cons_of_mem p hp'))
  · intro rules rows out hout
    rcases List.mem_map.mp hout with ⟨r, _, rfl⟩
    exact ⟨rfl, rfl⟩

/-- Witness for C7: a record (month 7, weekday 2) skips a non-matching first
rule, takes the season of the second; a record matching no rule gets
"Medium"; the emitted rows carry the factor of their label. -/
theorem season_labeling_witness :
    mapLabel [⟨[1, 2], [0, 1], "Low"⟩, ⟨[7, 8], [2, 3], "High"⟩] 7 2 = "High" ∧
    mapLabel [⟨[1, 2], [0, 1], "Low"⟩] 7 2 = "Medium" ∧
    (apply_nash_seasonality [⟨[1, 2], [0, 1], "Low"⟩, ⟨[7, 8], [2, 3], "High"⟩]
        [⟨7, 2⟩]).map (fun r => (r.seasonLabel, r.seasonFactor))
      = [("High", 11/10)] := by
  refine ⟨?_, ?_,
    by norm_num [apply_nash_seasonality, mapLabel, label_to_factor]⟩
  · exact season_labeling.2.1 [⟨[1, 2], [0, 1], "Low"⟩] [] ⟨[7, 8], [2, 3], "High"⟩
      7 2 (by decide) (by decide) (by decide)
  · exact season_labeling.1 [⟨[1, 2], [0, 1], "Low"⟩] 7 2 (by decide)

/-! ## Scheduler helper lemmas -/

/-- Every record emitted for a group carries that group's key. -/
theorem mem_allocateGroup_key {k : Key3} {total : ℤ} {blocks : List ShiftRow}
    {source : String} {rec : ScheduleRecord}
    (h : rec ∈ allocateGroup k total blocks source) : recKey rec = k := by
  rcases List.mem_map.mp h with ⟨p, _, rfl⟩
  rfl

/-- Every record emitted for a group carries the resolved source tag. -/
theorem mem_allocateGroup_source {k : Key3} {total : ℤ}
    {blocks : List ShiftRow} {source : String} {rec : ScheduleRecord}
    (h : rec ∈ allocateGroup k total blocks source) :
    rec.shiftSource = source := by
  rcases List.mem_map.mp h with ⟨p, _, rfl⟩
  rfl

/-- Group-key tagging lifted to `processGroup`. -/
theorem mem_processGroup_key {plan : List PlanRow}
    {shiftsDf : Option (List ShiftRow)} {yamlCfg : String → List ShiftRow}
    {k : Key3} {rec : ScheduleRecord}
    (h : rec ∈ processGroup plan shiftsDf yamlCfg k) : recKey rec = k := by
  unfold processGroup at h
  split at h
  · cases h
  · split at h
    · cases h
    · exact mem_allocateGroup_key h

/-- Source tagging lifted to `processGroup`. -/
theorem mem_processGroup_source {plan : List PlanRow}
    {shiftsDf : Option (List ShiftRow)} {yamlCfg : String → List ShiftRow}
    {k : Key3} {rec : ScheduleRecord}
    (h : rec ∈ processGroup plan shiftsDf yamlCfg k) :
    rec.shiftSource = (resolveShifts shiftsDf yamlCfg k.2.1).2 := by
  unfold processGroup at h
  split at h
  · cases h
  · split at h
    · cases h
    · exact mem_allocateGroup_source h

/-- The group keys of a plan are distinct. -/
theorem nodup_groupKeys3 (plan : List PlanRow) : (groupKeys3 plan).Nodup :=
  (List.perm_insertionSort le3 _).nodup_iff.mpr (List.nodup_dedup _)

/-- Filtering a concatenation of per-key emissions by one key isolates that
key's emission, provided the keys are distinct and each emission is tagged
with its key. -/
theorem recordsFor_flatMap (keys : List Key3)
    (f : Key3 → List ScheduleRecord)
    (hf : ∀ k rec, rec ∈ f k → recKey rec = k) (hnd : keys.Nodup) {k : Key3}
    (hk : k ∈ keys) : recordsFor (keys.flatMap f) k = f k := by
  induction keys with
  | nil => cases hk
  | cons k0 ks ih =>
      rcases List.nodup_cons.mp hnd with ⟨hk0, hnd2⟩
      unfold recordsFor
      rw [List.flatMap_cons, List.filter_append]
      by_cases hkk : k = k0
      · subst hkk
        have h1 : (f k).filter (fun rec => decide (recKey rec = k)) = f k :=
          List.filter_eq_self.mpr (fun rec hrec => by
            simp [hf k rec hrec])
        have h2 : (ks.flatMap f).filter (fun rec => decide (recKey rec = k))
            = [] := by
          apply List.filter_eq_nil_iff.mpr
          intro rec hrec
          rcases List.mem_flatMap.mp hrec with ⟨k1, hk1, hrec1⟩
          have hkey := hf k1 rec hrec1
          simp only [decide_eq_true_eq, hkey]
          intro hEq
          exact hk0 (hEq ▸ hk1)
        rw [h1, h2, List.append_nil]
      · have hkks : k ∈ ks := by
          rcases List.mem_cons.mp hk with h | h
          · exact absurd h hkk
          · exact h
        have h1 : (f k0).filter (fun rec => decide (recKey rec = k)) = [] := by
          apply List.filter_eq_nil_iff.mpr
          intro rec hrec
          have hkey := hf k0 rec hrec
          simp only [decide_eq_true_eq, hkey]
          exact fun hEq => hkk hEq.symm
        rw [h1, List.nil_append]
        exact ih hnd2 hkks

/-- For a key of the plan, the records the scheduler emits for it are
exactly the output of its group's loop body. -/
theorem recordsFor_assign (plan : List PlanRow)
    (shiftsDf : Option (List ShiftRow)) (yamlCfg : String → List ShiftRow)
    {k : Key3} (hk : k ∈ groupKeys3 plan) :
    recordsFor (assign_staff_to_shifts plan shiftsDf yamlCfg) k
      = processGroup plan shiftsDf yamlCfg k :=
  recordsFor_flatMap _ _ (fun _ _ => mem_processGroup_key)
    (nodup_groupKeys3 plan) hk

/-- Sum of `base + (1 if i < rem else 0)` over indices `0..n-1`. -/
theorem sum_base_ite (n : ℕ) (base rem : ℤ) :
    ((List.range n).map
        (fun i : ℕ => base + if (i : ℤ) < rem then 1 else 0)).sum
      = n * base + min (n : ℤ) (max rem 0) := by
  induction n with
  | zero => simp
  | succ m ih =>
      rw [List.range_succ, List.map_append, List.sum_append]
      simp only [List.map_cons, List.map_nil, List.sum_cons, List.sum_nil]
      rw [ih]
      have hmul : ((m : ℤ) + 1) * base = (m : ℤ) * base + base := by ring
      push_cast
      rw [hmul]
      by_cases h : (m : ℤ) < rem
      · rw [if_pos h]
        omega
      · rw [if_neg h]
        omega

/-- The assigned counts of one group's emission are `base + [i < rem]` over
the block indices. -/
theorem map_assigned_allocateGroup (k : Key3) (base rem : ℤ) (src : String)
    (blocks : List ShiftRow) :
    ((blocks.enum.map (allocRecord k base rem src)).map
        (fun r => r.assigned)).sum
      = (blocks.length : ℤ) * base + min (blocks.length : ℤ) (max rem 0) := by
  rw [List.map_map]
  have h1 : ((fun r : ScheduleRecord => r.assigned) ∘ allocRecord k base rem src)
      = (fun i : ℕ => base + if (i : ℤ) < rem then 1 else 0) ∘ Prod.fst := rfl
  rw [h1, List.enum_eq_zip_range, ← List.map_map,
    List.map_fst_zip _ _ (by simp), sum_base_ite]

/-- Conservation for one group's emission: the assigned counts sum to the
group's total (`n * (T fdiv n) + (T fmod n) = T`). -/
theorem sum_allocateGroup (k : Key3) (total : ℤ) (blocks : List ShiftRow)
    (src : String) (hb : blocks ≠ []) :
    ((allocateGroup k total blocks src).map (fun r => r.assigned)).sum
      = total := by
  have hn : 0 < (blocks.length : ℤ) := by
    exact_mod_cast List.length_pos.mpr hb
  unfold allocateGroup
  rw [map_assigned_allocateGroup]
  have hmod0 : 0 ≤ Int.fmod total blocks.length := Int.fmod_nonneg' total hn
  have hmodlt : Int.fmod total blocks.length < (blocks.length : ℤ) :=
    Int.fmod_lt_of_pos total hn
  have hmm : min (blocks.length : ℤ) (max (Int.fmod total blocks.length) 0)
      = Int.fmod total blocks.length := by omega
  rw [hmm]
  exact Int.fdiv_add_fmod total blocks.length

/-! ## Claim C1: allocation conservation -/

/-- C1 — Allocation conservation: for every `(Date, Role, SeasonLabel)` group
of the plan with total staff needed `T ≥ 0` and a non-empty resolved list of
shift blocks, the `assigned` values of the records emitted for that group sum
to exactly `T`; a group with `T = 0` emits no records at all. -/
theorem allocation_conservation (plan : List PlanRow)
    (shiftsDf : Option (List ShiftRow)) (yamlCfg : String → List ShiftRow)
    (k : Key3) (hk : k ∈ groupKeys3 plan) (hT : 0 ≤ groupTotal3 plan k)
    (hblocks : (resolveShifts shiftsDf yamlCfg k.2.1).1 ≠ []) :
    ((recordsFor (assign_staff_to_shifts plan shiftsDf yamlCfg) k).map
        (fun r => r.assigned)).sum = groupTotal3 plan k ∧
    (groupTotal3 plan k = 0 →
      recordsFor (assign_staff_to_shifts plan shiftsDf yamlCfg) k = []) := by
  rw [recordsFor_assign plan shiftsDf yamlCfg hk]
  unfold processGroup
  by_cases h0 : groupTotal3 plan k = 0
  · rw [if_pos h0]
    exact ⟨by simp [h0], fun _ => rfl⟩
  · rw [if_neg h0, if_neg hblocks]
    exact ⟨sum_allocateGroup _ _ _ _ hblocks, fun h => absurd h h0⟩

/-- Witness for C1 at the spec's examples: the T = 5 group's records sum to
5, and the T = 0 group emits no records. -/
theorem allocation_conservation_witness :
    ((recordsFor (assign_staff_to_shifts samplePlan5 (some sampleShifts)
        yamlEmpty) sampleKey5).map (fun r => r.assigned)).sum = 5 ∧
    recordsFor (assign_staff_to_shifts samplePlan0 (some sampleShifts)
        yamlEmpty) sampleKey0 = [] := by
  constructor
  · have h := allocation_conservation samplePlan5 (some sampleShifts) yamlEmpty
      sampleKey5 (by decide) (by decide) (by decide)
    exact h.1.trans (by decide)
  · have h := allocation_conservation samplePlan0 (some sampleShifts) yamlEmpty
      sampleKey0 (by decide) (by decide) (by decide)
    exact h.2 (by decide)

/-! ## Claim C5: remainder tie-break -/

/-- C5 — Remainder tie-break: for a group with total `T ≠ 0`, letting
`base = T fdiv n` and `remainder = T fmod n` over the `n` resolved shift
blocks, the scheduler emits one record per block in the blocks' given input
order (record `i` carries block `i`'s label) and assigns `base + 1` exactly
to the indices `i < remainder` and `base` to every later index. -/
theorem remainder_tie_break (plan : List PlanRow)
    (shiftsDf : Option (List ShiftRow)) (yamlCfg : String → List ShiftRow)
    (k : Key3) (hk : k ∈ groupKeys3 plan) (h0 : groupTotal3 plan k ≠ 0)
    (i : ℕ) (hi : i < (resolveShifts shiftsDf yamlCfg k.2.1).1.length) :
    (recordsFor (assign_staff_to_shifts plan shiftsDf yamlCfg) k).length
        = (resolveShifts shiftsDf yamlCfg k.2.1).1.length ∧
    ∃ hlen : i < (recordsFor (assign_staff_to_shifts plan shiftsDf yamlCfg)
        k).length,
      ((recordsFor (assign_staff_to_shifts plan shiftsDf yamlCfg) k).get
          ⟨i, hlen⟩).shift
        = ((resolveShifts shiftsDf yamlCfg k.2.1).1.get ⟨i, hi⟩).shift ∧
      ((recordsFor (assign_staff_to_shifts plan shiftsDf yamlCfg) k).get
          ⟨i, hlen⟩).assigned
        = (if (i : ℤ) < Int.fmod (groupTotal3 plan k)
              ((resolveShifts shiftsDf yamlCfg k.2.1).1.length)
           then Int.fdiv (groupTotal3 plan k)
              ((resolveShifts shiftsDf yamlCfg k.2.1).1.length) + 1
           else Int.fdiv (groupTotal3 plan k)
              ((resolveShifts shiftsDf yamlCfg k.2.1).1.length)) := by
  have hbne : (resolveShifts shiftsDf yamlCfg k.2.1).1 ≠ [] := by
    intro hnil
    rw [hnil] at hi
    exact absurd hi (by simp)
  rw [recordsFor_assign plan shiftsDf yamlCfg hk]
  unfold processGroup
  rw [if_neg h0, if_neg hbne]
  unfold allocateGroup
  have hlen : i < ((resolveShifts shiftsDf yamlCfg k.2.1).1.enum.map
      (allocRecord k
        (Int.fdiv (groupTotal3 plan k)
          (resolveShifts shiftsDf yamlCfg k.2.1).1.length)
        (Int.fmod (groupTotal3 plan k)
          (resolveShifts shiftsDf yamlCfg k.2.1).1.length)
        (resolveShifts shiftsDf yamlCfg k.2.1).2)).length := by
    rw [List.length_map, List.enum_length]
    exact hi
  refine ⟨by rw [List.length_map, List.enum_length], hlen, ?_, ?_⟩
  · simp [allocRecord]
  · simp only [List.get_eq_getElem, List.getElem_map, List.getElem_enum,
      allocRecord]
    by_cases hcase : (i : ℤ) < Int.fmod (groupTotal3 plan k)
        ((resolveShifts shiftsDf yamlCfg k.2.1).1.length)
    · rw [if_pos hcase, if_pos hcase]
    · rw [if_neg hcase, if_neg hcase]
      exact Int.add_zero _

/-- Witness for C5 at the spec's example (T = 5, shifts [Day, Night] in that
order): index 0 gets Day with 3 = base + 1, index 1 gets Night with
2 = base. -/
theorem remainder_tie_break_witness :
    (∃ hlen : 0 < (recordsFor (assign_staff_to_shifts samplePlan5
        (some sampleShifts) yamlEmpty) sampleKey5).length,
      ((recordsFor (assign_staff_to_shifts samplePlan5 (some sampleShifts)
          yamlEmpty) sampleKey5).get ⟨0, hlen⟩).shift = "Day" ∧
      ((recordsFor (assign_staff_to_shifts samplePlan5 (some sampleShifts)
          yamlEmpty) sampleKey5).get ⟨0, hlen⟩).assigned = 3) ∧
    (∃ hlen : 1 < (recordsFor (assign_staff_to_shifts samplePlan5
        (some sampleShifts) yamlEmpty) sampleKey5).length,
      ((recordsFor (assign_staff_to_shifts samplePlan5 (some sampleShifts)
          yamlEmpty) sampleKey5).get ⟨1, hlen⟩).shift = "Night" ∧
      ((recordsFor (assign_staff_to_shifts samplePlan5 (some sampleShifts)
          yamlEmpty) sampleKey5).get ⟨1, hlen⟩).assigned = 2) := by
  constructor
  · obtain ⟨hlength, hlen, hshift, hassigned⟩ := remainder_tie_break samplePlan5
      (some sampleShifts) yamlEmpty sampleKey5 (by decide) (by decide) 0
      (by decide)
    exact ⟨hlen, hshift.trans (by decide), hassigned.trans (by decide)⟩
  · obtain ⟨hlength, hlen, hshift, hassigned⟩ := remainder_tie_break samplePlan5
      (some sampleShifts) yamlEmpty sampleKey5 (by decide) (by decide) 1
      (by decide)
    exact ⟨hlen, hshift.trans (by decide), hassigned.trans (by decide)⟩

/-! ## Claim C8: shift source tagging -/

/-- C8 — Shift source tagging: when a non-empty explicit shift table is
supplied, every emitted record is tagged "Excel"; when the table is absent
or empty, the YAML per-role configuration supplies the blocks and every
emitted record is tagged "YAML". -/
theorem shift_source_tagging :
    (∀ (plan : List PlanRow) (rows : List ShiftRow)
        (yamlCfg : String → List ShiftRow) (rec : ScheduleRecord),
        rows ≠ [] →
        rec ∈ assign_staff_to_shifts plan (some rows) yamlCfg →
        rec.shiftSource = "Excel") ∧
    (∀ (plan : List PlanRow) (yamlCfg : String → List ShiftRow)
        (rec : ScheduleRecord),
        rec ∈ assign_staff_to_shifts plan none yamlCfg →
        rec.shiftSource = "YAML") ∧
    (∀ (plan : List PlanRow) (yamlCfg : String → List ShiftRow)
        (rec : ScheduleRecord),
        rec ∈ assign_staff_to_shifts plan (some []) yamlCfg →
        rec.shiftSource = "YAML") := by
  refine ⟨?_, ?_, ?_⟩
  · intro plan rows yamlCfg rec hrows hmem
    rcases List.mem_flatMap.mp hmem with ⟨k, _, hrec⟩
    rw [mem_processGroup_source hrec]
    simp [resolveShifts, hrows]
  · intro plan yamlCfg rec hmem
    rcases List.mem_flatMap.mp hmem with ⟨k, _, hrec⟩
    rw [mem_processGroup_source hrec]
    rfl
  · intro plan yamlCfg rec hmem
    rcases List.mem_flatMap.mp hmem with ⟨k, _, hrec⟩
    rw [mem_processGroup_source hrec]
    simp [resolveShifts]

/-- Witness for C8: the record emitted for the sample plan is tagged "Excel"
when the Excel table is supplied and "YAML" when it is absent and the YAML
configuration provides the RN shifts. -/
theorem shift_source_tagging_witness :
    sampleScheduleExcel.shiftSource = "Excel" ∧
    sampleScheduleYaml.shiftSource = "YAML" :=
  ⟨shift_source_tagging.1 samplePlan5 sampleShifts yamlEmpty
      sampleScheduleExcel (by decide) (by decide),
   shift_source_tagging.2.1 samplePlan5 yamlRN sampleScheduleYaml (by decide)⟩

/-! ## Comparison helper lemmas -/

/-- `a - b = max (a - b) 0 - max (b - a) 0` over the rationals. -/
theorem sub_eq_surplus_sub_shortage (a b : ℚ) :
    a - b = max (a - b) 0 - max (b - a) 0 := by
  rcases le_total a b with h | h
  · rw [max_eq_right (by linarith), max_eq_left (by linarith)]
    ring
  · rw [max_eq_left (by linarith), max_eq_right (by linarith)]
    ring

/-- Shortage and surplus are never both positive. -/
theorem min_clip_clip (a b : ℚ) : min (max (b - a) 0) (max (a - b) 0) = 0 := by
  rcases le_total a b with h | h
  · have h2 : max (a - b) 0 = 0 := max_eq_right (by linarith)
    rw [h2]
    exact min_eq_right (le_max_right _ _)
  · have h2 : max (b - a) 0 = 0 := max_eq_right (by linarith)
    rw [h2]
    exact min_eq_left (le_max_right _ _)

/-- The left-merge-with-fillna lookup over the Role aggregate equals the
direct sum of FTEs over the rows with that role (0 when there are none). -/
theorem lookupAvailable_eq_roleSum (res : List PCRow) (role : String) :
    lookupAvailable res role = roleSum res role := by
  unfold lookupAvailable
  cases hfind : (availableByRole res).find? (fun p => decide (p.1 = role)) with
  | none =>
      have hnotin : role ∉ roleKeys res := by
        intro hin
        have hmem : (role, roleSum res role) ∈ availableByRole res :=
          List.mem_map.mpr ⟨role, hin, rfl⟩
        have := List.find?_eq_none.mp hfind _ hmem
        simp at this
      have hnone : ∀ r ∈ res, r.role ≠ role := by
        intro r hr hEq
        apply hnotin
        unfold roleKeys
        rw [(List.perm_insertionSort (fun a b : String => a ≤ b) _).mem_iff,
          List.mem_dedup]
        exact List.mem_map.mpr ⟨r, hr, hEq⟩
      have hfilter : res.filter (fun r => decide (r.role = role)) = [] :=
        List.filter_eq_nil_iff.mpr (fun r hr => by simp [hnone r hr])
      unfold roleSum
      rw [hfilter]
      rfl
  | some p =>
      have hp := List.find?_some hfind
      have hpmem := List.mem_of_find?_eq_some hfind
      rcases List.mem_map.mp hpmem with ⟨r0, _, rfl⟩
      simp only [decide_eq_true_eq] at hp
      rw [hp]

/-! ## Claim C4: gap consistency -/

/-- C4 — Gap consistency: every comparison row satisfies
`gap = available - needed`, `shortage = max (needed - available) 0`,
`surplus = max (available - needed) 0`, hence `gap = surplus - shortage` and
`min shortage surplus = 0`. -/
theorem gap_consistency (plan : List PlanRow) (res : List PCRow)
    (row : CompRow) (hmem : row ∈ compare_plan_vs_resources plan res) :
    row.gap = row.available - (row.needed : ℚ) ∧
    row.shortage = max ((row.needed : ℚ) - row.available) 0 ∧
    row.surplus = max (row.available - (row.needed : ℚ)) 0 ∧
    row.gap = row.surplus - row.shortage ∧
    min row.shortage row.surplus = 0 := by
  rcases List.mem_map.mp hmem with ⟨k, _, rfl⟩
  refine ⟨rfl, rfl, rfl, ?_, ?_⟩
  · exact sub_eq_surplus_sub_shortage _ _
  · exact min_clip_clip _ _

/-- Witness for C4 at the spec's example: needed 5 against available 3 gives
gap -2, shortage 2, surplus 0. -/
theorem gap_consistency_witness :
    sampleCompRN.gap = sampleCompRN.surplus - sampleCompRN.shortage ∧
    min sampleCompRN.shortage sampleCompRN.surplus = 0 ∧
    sampleCompRN.gap = -2 ∧ sampleCompRN.shortage = 2 ∧
    sampleCompRN.surplus = 0 := by
  have hmem : sampleCompRN ∈ compare_plan_vs_resources samplePlan5 samplePCRN3 := by
    unfold compare_plan_vs_resources
    refine List.mem_map.mpr ⟨("2025-06-01", "RN"), by decide, ?_⟩
    norm_num [groupTotal2, lookupAvailable, availableByRole, roleKeys, roleSum,
      key2, samplePlan5, samplePCRN3, sampleCompRN, List.dedup, List.find?]
  have h := gap_consistency samplePlan5 samplePCRN3 sampleCompRN hmem
  refine ⟨h.2.2.2.1, h.2.2.2.2, by norm_num [sampleCompRN], by norm_num [sampleCompRN],
    by norm_num [sampleCompRN]⟩

/-! ## Claim C10: the implicit RN/NA capacity filter -/

/-- C10 — RN/NA capacity filter: `build_position_control` keeps only RN and
NA rows, so every comparison row whose role is neither "RN" nor "NA"
resolves available FTE to 0, regardless of that role's capacity in the
resource input. -/
theorem rn_na_capacity_filter (plan : List PlanRow)
    (resources : List ResourceRow) (row : CompRow)
    (hmem : row ∈ compare_plan_vs_resources plan
      (build_position_control resources))
    (hrn : row.role ≠ "RN") (hna : row.role ≠ "NA") :
    row.available = 0 := by
  rcases List.mem_map.mp hmem with ⟨k, _, rfl⟩
  show lookupAvailable (build_position_control resources) k.2 = 0
  rw [lookupAvailable_eq_roleSum]
  unfold roleSum
  have hfilter : (build_position_control resources).filter
      (fun r => decide (r.role = k.2)) = [] := by
    apply List.filter_eq_nil_iff.mpr
    intro r hr
    rcases List.mem_map.mp hr with ⟨rr, hrr, rfl⟩
    have hf := (List.mem_filter.mp hrr).2
    simp only [decide_eq_true_eq] at hf ⊢
    intro hEq
    rcases hf with h | h
    · exact hrn (hEq ▸ h)
    · exact hna (hEq ▸ h)
  rw [hfilter]
  rfl

/-- Witness for C10: a plan needing 5 Tech compared against a resource input
holding 50 Tech FTEs still resolves available FTE 0, because the Tech rows
are dropped by the RN/NA filter. -/
theorem rn_na_capacity_filter_witness :
    sampleCompTech.available = 0 ∧ sampleCompTech.needed = 5 ∧
    roleSum (build_position_control sampleResourcesTech) "Tech" = 0 := by
  have hmem : sampleCompTech ∈ compare_plan_vs_resources samplePlanTech
      (build_position_control sampleResourcesTech) := by
    unfold compare_plan_vs_resources
    refine List.mem_map.mpr ⟨("2025-06-01", "Tech"), by decide, ?_⟩
    norm_num [groupTotal2, lookupAvailable, availableByRole, roleKeys, roleSum,
      key2, samplePlanTech, sampleResourcesTech, sampleCompTech,
      build_position_control, List.dedup, List.find?]
  refine ⟨rn_na_capacity_filter samplePlanTech sampleResourcesTech
      sampleCompTech hmem (by decide) (by decide), by norm_num [sampleCompTech],
    ?_⟩
  decide

/-! ## Claim C3: capacity matching -/

/-- Counterexample to C3: for the resource input holding only a Dept B RN
Night capacity of 5 FTE, the specification's two-tier matching resolves the
(Dept A, RN, Night) demand to availableFTE 0 (no exact row, no
(Dept A, RN, All) row), but `compare_plan_vs_resources` — which matches on
Role alone and carries no department or shift key at all — resolves the
demand's comparison row to available 5. -/
theorem fallback_capacity_counterexample :
    specResolveAvailableFTE sampleCapDeptB "Dept A" "RN" "Night" = 0 ∧
    (compare_plan_vs_resources samplePlanC3
        (build_position_control sampleResourcesDeptB)).map
        (fun r => (r.date, r.role, r.available))
      = [("2025-06-01", "RN", (5 : ℚ))] := by
  constructor
  · decide
  · norm_num [compare_plan_vs_resources, groupKeys2, groupTotal2,
      lookupAvailable, availableByRole, roleKeys, roleSum, key2,
      build_position_control, samplePlanC3, sampleResourcesDeptB,
      List.dedup, List.find?]

/-- C3 (amended) — Role-only capacity matching: for every comparison row,
the available FTE is the sum of the position-control FTEs over all rows with
the same Role, regardless of department or shift (0 when no row with that
Role exists); there is no (department, role, shift) exact-match tier and no
"All" fallback tier. -/
theorem role_only_capacity_matching (plan : List PlanRow) (res : List PCRow)
    (row : CompRow) (hmem : row ∈ compare_plan_vs_resources plan res) :
    row.available
      = ((res.filter (fun r => decide (r.role = row.role))).map
          (fun r => r.ftes)).sum := by
  rcases List.mem_map.mp hmem with ⟨k, _, rfl⟩
  exact lookupAvailable_eq_roleSum res k.2

/-- Witness for the amended C3: the comparison row for `samplePlanC3` gets
available FTE 5 — the whole RN capacity, wherever it lives. -/
theorem role_only_capacity_matching_witness :
    sampleCompC3.available
      = (((build_position_control sampleResourcesDeptB).filter
          (fun r => decide (r.role = sampleCompC3.role))).map
          (fun r => r.ftes)).sum ∧
    sampleCompC3.available = 5 := by
  have hmem : sampleCompC3 ∈ compare_plan_vs_resources samplePlanC3
      (build_position_control sampleResourcesDeptB) := by
    unfold compare_plan_vs_resources
    refine List.mem_map.mpr ⟨("2025-06-01", "RN"), by decide, ?_⟩
    norm_num [groupTotal2, lookupAvailable, availableByRole, roleKeys, roleSum,
      key2, samplePlanC3, sampleResourcesDeptB, sampleCompC3,
      build_position_control, List.dedup, List.find?]
  exact ⟨role_only_capacity_matching samplePlanC3
    (build_position_control sampleResourcesDeptB) sampleCompC3 hmem,
    by norm_num [sampleCompC3]⟩

/-! ## Claim C9: idempotence of the full pipeline -/

/-- Counterexample to C9: the Summary table embeds
`datetime.now().strftime("%Y-%m-%d")` (src/main.py line 157), so two runs of
the pipeline on identical inputs — here on consecutive days — produce
different output tables. -/
theorem run_date_counterexample :
    run_pipeline "2026-10-12" "wb.xlsx" [] ⟨false, []⟩ [] [] yamlEmpty
      ≠ run_pipeline "2026-10-13" "wb.xlsx" [] ⟨false, []⟩ [] [] yamlEmpty := by
  intro h
  have h2 := congrArg (fun t => t.summary.runDate) h
  exact absurd h2 (by decide)

/-- C9 (amended) — Determinism up to the run date: the Staffing Plan,
Staffing vs Resources, Staffing Schedule and Season Summary tables are pure
functions of the input tables (no randomness, no unordered-iteration
nondeterminism: grouping keys are sorted deterministically), and the Summary
table of two runs on identical inputs agrees exactly when the two runs
record the same run date. -/
theorem pipeline_deterministic_up_to_run_date (d1 d2 wb : String)
    (census : List CensusRow) (rules : RulesTable)
    (resources : List ResourceRow) (shiftsRows : List ShiftRow)
    (yamlCfg : String → List ShiftRow) :
    (run_pipeline d1 wb census rules resources shiftsRows yamlCfg).plan
      = (run_pipeline d2 wb census rules resources shiftsRows yamlCfg).plan ∧
    (run_pipeline d1 wb census rules resources shiftsRows yamlCfg).comp
      = (run_pipeline d2 wb census rules resources shiftsRows yamlCfg).comp ∧
    (run_pipeline d1 wb census rules resources shiftsRows yamlCfg).schedule
      = (run_pipeline d2 wb census rules resources shiftsRows
          yamlCfg).schedule ∧
    (run_pipeline d1 wb census rules resources shiftsRows
        yamlCfg).seasonSummary
      = (run_pipeline d2 wb census rules resources shiftsRows
          yamlCfg).seasonSummary ∧
    ((run_pipeline d1 wb census rules resources shiftsRows yamlCfg).summary
        = (run_pipeline d2 wb census rules resources shiftsRows
            yamlCfg).summary
      ↔ d1 = d2) := by
  refine ⟨rfl, rfl, rfl, rfl, ?_, ?_⟩
  · intro h
    exact congrArg Summary.runDate h
  · intro h
    rw [h]

/-- Witness for the amended C9 at concrete inputs: two runs on identical
(empty) inputs on consecutive days produce the same schedule table, and
their Summary tables differ exactly because the run dates differ. -/
theorem pipeline_deterministic_up_to_run_date_witness :
    (run_pipeline "2026-10-12" "wb.xlsx" [] ⟨false, []⟩ [] []
        yamlEmpty).schedule
      = (run_pipeline "2026-10-13" "wb.xlsx" [] ⟨false, []⟩ [] []
          yamlEmpty).schedule ∧
    ¬((run_pipeline "2026-10-12" "wb.xlsx" [] ⟨false, []⟩ [] []
        yamlEmpty).summary
      = (run_pipeline "2026-10-13" "wb.xlsx" [] ⟨false, []⟩ [] []
          yamlEmpty).summary) := by
  have h := pipeline_deterministic_up_to_run_date "2026-10-12" "2026-10-13"
    "wb.xlsx" [] ⟨false, []⟩ [] [] yamlEmpty
  exact ⟨h.2.2.1, fun hs => absurd (h.2.2.2.2.mp hs) (by decide)⟩

end HiraLight
